import Mathlib

/-!
Verification of the Site Traversal & Structured Page-Exploration Engine.

This development shallowly embeds the repository's URL utilities
(`src/orchestrator/url_utils.py`), the structured page explorer
(`src/inspector/checks/structured_explorer.py`) and the crawler contract
(derived from `tests/orchestrator/test_crawler.py` and the design document,
since `src/orchestrator/crawler.py` itself is not part of the sources).

URLs are modelled as `List Char`.  The ambient semantics of Python's
`urllib.parse.urlparse` / `urlunparse` (CPython 3.11, `urllib/parse.py`)
is embedded faithfully for the fragment of behaviour these utilities
exercise: scheme extraction, netloc splitting with the `Invalid IPv6 URL`
check, fragment and query splitting, params splitting, and reassembly.
Unicode-only refinements (NFKC netloc validation, non-ASCII lowercasing
and non-ASCII digits) are outside the model, which treats characters
ASCII-wise exactly as CPython does for ASCII input.
-/

/-- Decidable equality for `Except`, used to evaluate the embedded
functions on concrete inputs. -/
instance {ε α : Type} [DecidableEq ε] [DecidableEq α] : DecidableEq (Except ε α) := fun a b =>
  match a, b with
  | .error x, .error y =>
    if h : x = y then isTrue (by rw [h]) else isFalse (by simp [h])
  | .ok x, .ok y =>
    if h : x = y then isTrue (by rw [h]) else isFalse (by simp [h])
  | .error _, .ok _ => isFalse (by simp)
  | .ok _, .error _ => isFalse (by simp)

namespace Py

/-- Split a list at the first occurrence of `c`; `none` when `c` is absent.
Mirrors Python's `str.split(c, 1)` / `str.find(c)` usage in `urlsplit`. -/
def splitOnce (c : Char) : List Char → Option (List Char × List Char)
  | [] => none
  | x :: xs =>
    if x = c then some ([], xs)
    else match splitOnce c xs with
      | some (a, b) => some (x :: a, b)
      | none => none

/-- Python `str.split(c)` semantics on lists: the empty list yields `[[]]`. -/
def splitSeg (c : Char) : List Char → List (List Char)
  | [] => [[]]
  | x :: xs =>
    if x = c then [] :: splitSeg c xs
    else match splitSeg c xs with
      | [] => [[x]]
      | s :: ss => (x :: s) :: ss

/-- Characters valid in scheme names (`scheme_chars` in `urllib/parse.py`). -/
def schemeChar (c : Char) : Bool :=
  c.isAlpha || c.isDigit || c = '+' || c = '-' || c = '.'

/-- Removal of `\t`, `\r`, `\n` anywhere in the URL
(`_UNSAFE_URL_BYTES_TO_REMOVE` in `urlsplit`). -/
def cleanUrl (url : List Char) : List Char :=
  url.filter (fun c => !(c = '\t' || c = '\r' || c = '\n'))

/-- Delimiters ending the netloc (`_splitnetloc` scans for the first of
`/`, `?`, `#`). -/
def netlocDelim (c : Char) : Bool := c = '/' || c = '?' || c = '#'

/-- Scheme extraction step of `urlsplit`: take everything before the first
colon when it is a nonempty run of scheme characters starting with an
ASCII letter; the scheme is lowercased.  Returns `(scheme, rest)`. -/
def schemeSplit (url : List Char) : List Char × List Char :=
  match splitOnce ':' url with
  | some (pre, rest) =>
    if !pre.isEmpty && (pre.headD ' ').isAlpha && pre.all schemeChar
    then (pre.map Char.toLower, rest)
    else ([], url)
  | none => ([], url)

/-- Netloc extraction step of `urlsplit`: when the remainder starts with
`//`, the netloc runs to the first of `/`, `?`, `#`.  Returns
`(netloc, rest)`. -/
def netlocSplit (url : List Char) : List Char × List Char :=
  if url.take 2 = ['/', '/']
  then ((url.drop 2).takeWhile (fun c => !netlocDelim c),
        (url.drop 2).dropWhile (fun c => !netlocDelim c))
  else ([], url)

/-- Mismatched square brackets in the netloc make `urlsplit` raise
`ValueError("Invalid IPv6 URL")`. -/
def bracketBad (n : List Char) : Bool :=
  (n.contains '[' && !n.contains ']') || (n.contains ']' && !n.contains '[')

/-- Fragment split: everything after the first `#` is the fragment. -/
def fragSplit (url : List Char) : List Char × List Char :=
  match splitOnce '#' url with
  | some (a, b) => (a, b)
  | none => (url, [])

/-- Query split: everything after the first `?` (in the pre-fragment part)
is the query. -/
def querySplit (url : List Char) : List Char × List Char :=
  match splitOnce '?' url with
  | some (a, b) => (a, b)
  | none => (url, [])

/-- Result of `urlsplit`: the five URL components. -/
structure UrlSplit where
  scheme : List Char
  netloc : List Char
  path : List Char
  query : List Char
  fragment : List Char
deriving Repr, DecidableEq

/-- Core of `urlsplit` after unsafe-byte removal: scheme, netloc (with the
IPv6 bracket check, the one `ValueError` this code path can raise),
fragment, then query. -/
def splitCore (url : List Char) : Except String UrlSplit :=
  let s := schemeSplit url
  let n := netlocSplit s.2
  if bracketBad n.1 then .error "Invalid IPv6 URL"
  else
    let f := fragSplit n.2
    let q := querySplit f.1
    .ok ⟨s.1, n.1, q.1, q.2, f.2⟩

/-- Embedding of `urllib.parse.urlsplit` (CPython 3.11) for default
arguments: remove unsafe bytes, then split. -/
def pyUrlsplit (url : List Char) : Except String UrlSplit :=
  splitCore (cleanUrl url)

/-- Schemes whose URLs carry params (`uses_params` in `urllib/parse.py`). -/
def usesParams : List (List Char) :=
  [[], "ftp".data, "hdl".data, "prospero".data, "http".data, "imap".data,
   "https".data, "shttp".data, "rtsp".data, "rtspu".data, "sip".data,
   "sips".data, "mms".data, "sftp".data, "tel".data]

/-- Schemes that use a netloc (`uses_netloc` in `urllib/parse.py`). -/
def usesNetloc : List (List Char) :=
  [[], "ftp".data, "http".data, "gopher".data, "nntp".data, "telnet".data,
   "imap".data, "wais".data, "file".data, "mms".data, "https".data,
   "shttp".data, "snews".data, "prospero".data, "rtsp".data, "rtspu".data,
   "rsync".data, "svn".data, "svn+ssh".data, "sftp".data, "nfs".data,
   "git".data, "git+ssh".data, "ws".data, "wss".data]

/-- Last path segment split for `_splitparams`: `(before, lastSeg)` where
`lastSeg` follows the last `/` of a list known to contain `/`. -/
def splitLastSlash (p : List Char) : List Char × List Char :=
  match splitOnce '/' p.reverse with
  | some (ra, rb) => (rb.reverse, ra.reverse)
  | none => ([], p)

/-- Embedding of `_splitparams`: params are split at the first `;` of the
last path segment (or of the whole string when there is no `/`). -/
def splitParams (p : List Char) : List Char × List Char :=
  if p.contains '/' then
    let s := splitLastSlash p
    match splitOnce ';' s.2 with
    | some (a, b) => (s.1 ++ '/' :: a, b)
    | none => (p, [])
  else
    match splitOnce ';' p with
    | some (a, b) => (a, b)
    | none => (p, [])

/-- Result of `urlparse`: the six URL components. -/
structure UrlParse where
  scheme : List Char
  netloc : List Char
  path : List Char
  params : List Char
  query : List Char
  fragment : List Char
deriving Repr, DecidableEq

/-- Embedding of `urllib.parse.urlparse`: `urlsplit`, then params
extraction for schemes in `uses_params`. -/
def pyUrlparse (url : List Char) : Except String UrlParse := do
  let s ← pyUrlsplit url
  let pp :=
    if usesParams.contains s.scheme && s.path.contains ';'
    then splitParams s.path else (s.path, [])
  pure ⟨s.scheme, s.netloc, pp.1, pp.2, s.query, s.fragment⟩

/-- Embedding of `urllib.parse.urlunsplit` (CPython 3.11). -/
def pyUrlunsplit (scheme netloc path query fragment : List Char) : List Char :=
  let url :=
    if netloc ≠ [] ∨ (scheme ≠ [] ∧ usesNetloc.contains scheme ∧ path.take 2 ≠ ['/', '/'])
    then '/' :: '/' :: (netloc ++ (if path.headD '/' ≠ '/' then '/' :: path else path))
    else path
  let url := if scheme ≠ [] then scheme ++ ':' :: url else url
  let url := if query ≠ [] then url ++ '?' :: query else url
  if fragment ≠ [] then url ++ '#' :: fragment else url

/-- Embedding of `urllib.parse.urlunparse`: params are glued to the path
with `;`, then `urlunsplit`. -/
def pyUrlunparse (p : UrlParse) : List Char :=
  pyUrlunsplit p.scheme p.netloc
    (if p.params ≠ [] then p.path ++ ';' :: p.params else p.path)
    p.query p.fragment

end Py

namespace URLUtils

/-- Python `str.rstrip('/')` on the path. -/
def rstripSlash (p : List Char) : List Char :=
  (p.reverse.dropWhile (· = '/')).reverse

/-- Python `str.strip('/')` on the path. -/
def stripSlash (p : List Char) : List Char :=
  rstripSlash (p.dropWhile (· = '/'))

/-- Embedding of `URLUtils.normalize_url`: lowercase the netloc, drop every
trailing `/` of the path (the empty path becomes `/`), and reassemble
without the fragment.  A `ValueError` from `urlparse` propagates. -/
def normalize_url (url : List Char) : Except String (List Char) := do
  let parsed ← Py.pyUrlparse url
  let netloc := parsed.netloc.map Char.toLower
  let path0 := rstripSlash parsed.path
  let path := if path0 = [] then ['/'] else path0
  pure (Py.pyUrlunparse ⟨parsed.scheme, netloc, path, parsed.params, parsed.query, []⟩)

/-- Hexadecimal digit, case-insensitively (the UUID regex uses
`[0-9a-f]` with `re.IGNORECASE`). -/
def hexChar (c : Char) : Bool :=
  c.isDigit || ('a' ≤ c ∧ c ≤ 'f') || ('A' ≤ c ∧ c ≤ 'F')

/-- Exact match against the anchored UUID shape
`[0-9a-f]{8}-[0-9a-f]{4}-[0-9a-f]{4}-[0-9a-f]{4}-[0-9a-f]{12}`. -/
def uuidShape (l : List Char) : Bool :=
  match Py.splitSeg '-' l with
  | [g1, g2, g3, g4, g5] =>
    g1.length = 8 && g2.length = 4 && g3.length = 4 && g4.length = 4 &&
    g5.length = 12 && g1.all hexChar && g2.all hexChar && g3.all hexChar &&
    g4.all hexChar && g5.all hexChar
  | _ => false

/-- Python `re.match` with a `$`-anchored pattern also matches when the
string is the pattern followed by one final newline. -/
def uuidMatch (l : List Char) : Bool :=
  uuidShape l || (l.getLast? = some '\n' && uuidShape l.dropLast)

/-- Embedding of `URLUtils._is_id_parameter`: a fully numeric segment
(Python's `str.isdigit`, false on the empty string) or a UUID-shaped
segment. -/
def is_id_parameter (part : List Char) : Bool :=
  (!part.isEmpty && part.all Char.isDigit) || uuidMatch part

/-- Wildcard replacement of one path segment. -/
def wildcardSeg (part : List Char) : List Char :=
  if is_id_parameter part then ['*'] else part

/-- Embedding of `URLUtils.detect_path_parameters`: split the
slash-stripped path into segments, replace each ID-looking segment by `*`,
and reassemble with the original scheme, netloc, params, query and
fragment. -/
def detect_path_parameters (url : List Char) : Except String (List Char) := do
  let parsed ← Py.pyUrlparse url
  let parts := Py.splitSeg '/' (stripSlash parsed.path)
  let normalized := parts.map wildcardSeg
  let npath := if normalized = [[]] then ['/'] else '/' :: List.intercalate ['/'] normalized
  pure (Py.pyUrlunparse ⟨parsed.scheme, parsed.netloc, npath, parsed.params, parsed.query, parsed.fragment⟩)

/-- Embedding of `URLUtils.should_crawl_url`: same lowercased host as the
seed, and the path-parameter-normalized URL not already visited. -/
def should_crawl_url (url seed_host : List Char) (visited : List (List Char)) :
    Except String Bool := do
  let parsed ← Py.pyUrlparse url
  let url_host := parsed.netloc.map Char.toLower
  if url_host ≠ seed_host.map Char.toLower then pure false
  else do
    let normalized ← detect_path_parameters url
    pure (!(visited.contains normalized))

end URLUtils

namespace URLUtils

/-- Pointwise relation between two segment lists: equal segments, or an
ID-looking segment on both sides. -/
def segRel : List (List Char) → List (List Char) → Bool
  | [], [] => true
  | s :: t1, t :: t2 =>
    (s == t || (is_id_parameter s && is_id_parameter t)) && segRel t1 t2
  | _, _ => false

end URLUtils

namespace Explorer

/-- Evidence attached to a finding (`core/types.py`, `Evidence`). -/
structure Evidence where
  screenshot_path : Option String := none
  console_log : Option String := none
  wcag : Option (List String) := none
  viewport : Option String := none
  action_log : Option String := none
deriving Repr, DecidableEq

/-- One reproduction step (`core/types.py`, `ReproStep`).  The wall-clock
`timestamp` field is not modelled. -/
structure ReproStep where
  step_number : Nat
  action : String
  target : Option String := none
  value : Option String := none
  description : String := ""
  viewport : Option String := none
deriving Repr, DecidableEq

/-- A finding (`core/types.py`, `Bug`).  `reproduction_steps` is typed
`List[ReproStep]` in `types.py`, but `structured_explorer.py` line 714
populates it with the step descriptions (plain strings); the embedding
mirrors the runtime values. -/
structure Bug where
  id : String
  type : String
  severity : String
  page_url : String
  summary : String
  suggested_fix : Option String := none
  evidence : Evidence := {}
  reproduction_steps : List String := []
deriving Repr, DecidableEq

/-- Result of inspecting one page (`core/types.py`, `PageResult`).  The
unused `trace` field is not modelled; float timing values are abstracted
as integers, their values are never interpreted. -/
structure PageResult where
  page_url : String
  status : Option Nat := none
  outlinks : List String := []
  findings : List Bug := []
  timings : List (String × Int) := []
  viewport_artifacts : List String := []
deriving Repr, DecidableEq

/-- Modelled from the spec: `inspector/utils/action_recorder.py` is not
among the sources; the recorder state is its ordered step list, per the
interface in design section 4.4 (`recordNavigation`, `recordViewportChange`,
`recordClick`, `recordFill`, `getSteps`, `formatStepsForHuman`) and the
explorer's call sites. -/
structure ActionRecorder where
  page_url : String
  steps : List ReproStep := []
deriving Repr, DecidableEq

/-- Append one step; step numbers increase monotonically. -/
def ActionRecorder.addStep (r : ActionRecorder) (action : String)
    (target value : Option String) (description : String)
    (viewport : Option String) : ActionRecorder :=
  { r with steps := r.steps ++
      [⟨r.steps.length + 1, action, target, value, description, viewport⟩] }

/-- Modelled from the spec: `recordNavigation(url, description)`. -/
def ActionRecorder.record_navigation (r : ActionRecorder) (url desc : String) :
    ActionRecorder :=
  r.addStep "navigate" (some url) none desc none

/-- Modelled from the spec: `recordViewportChange(viewportLabel, description)`. -/
def ActionRecorder.record_viewport_change (r : ActionRecorder) (vp desc : String) :
    ActionRecorder :=
  r.addStep "viewport-change" none none desc (some vp)

/-- Modelled from the spec: `recordClick(selector, elementText, description)`. -/
def ActionRecorder.record_click (r : ActionRecorder) (selector text desc : String) :
    ActionRecorder :=
  r.addStep "click" (some selector) (some text) desc none

/-- Modelled from the spec: `recordFill(selector, value, fieldName)`; the
human description is derived from the field name. -/
def ActionRecorder.record_fill (r : ActionRecorder) (selector value field : String) :
    ActionRecorder :=
  r.addStep "fill" (some selector) (some value) ("Fill field " ++ field) none

/-- Modelled from the spec: `getSteps()` returns the accumulated steps. -/
def ActionRecorder.get_steps (r : ActionRecorder) : List ReproStep := r.steps

/-- Modelled from the spec: `formatStepsForHuman()` renders the step
descriptions as one human-readable string. -/
def ActionRecorder.format_steps_for_human (r : ActionRecorder) : String :=
  String.intercalate "; " (r.steps.map (fun s => s.description))

/-- Placeholder for `uuid.uuid4()`: bug identity is nondeterministic at
runtime and never examined by the embedded logic. -/
def uuidPlaceholder : String := "00000000-0000-4000-8000-000000000000"

/-- Python truthiness of `evidence.action_log`: `None` and the empty
string are both falsy. -/
def actionLogFalsy (ev : Evidence) : Bool :=
  ev.action_log = none || ev.action_log = some ""

/-- Embedding of `StructuredExplorer._create_bug_with_repro_steps`
(`structured_explorer.py` lines 697-716): attach the recorder's formatted
action log (unless already present) and the descriptions of all steps
recorded so far. -/
def create_bug_with_repro_steps (recorder : Option ActionRecorder)
    (type severity page_url summary : String)
    (suggested_fix : Option String := none)
    (evidence : Option Evidence := none) : Bug :=
  let ev := evidence.getD {}
  let ev :=
    match recorder with
    | some r =>
      if actionLogFalsy ev
      then { ev with action_log := some r.format_steps_for_human }
      else ev
    | none => ev
  { id := uuidPlaceholder, type := type, severity := severity,
    page_url := page_url, summary := summary, suggested_fix := suggested_fix,
    evidence := ev,
    reproduction_steps :=
      match recorder with
      | some r => r.get_steps.map (fun s => s.description)
      | none => [] }

/-- Python `sub in s` substring test. -/
def strContains (s sub : String) : Bool :=
  decide (List.IsInfix sub.data s.data)

/-- Environment of one element's click attempts: the outcome the browser
driver would give to each of the five click strategies of
`_safe_click_element`. -/
structure ClickEnv where
  plain : Except String Unit
  retryAfterDismiss : Except String Unit
  forced : Except String Unit
  scrollRetry : Except String Unit
  jsClick : Except String Unit
deriving Repr, DecidableEq

/-- The five strategies of the safe-click ladder, in source order. -/
inductive Strategy where
  | plain
  | dismissRetry
  | forced
  | scrollRetry
  | js
deriving Repr, DecidableEq

/-- Embedding of `StructuredExplorer._safe_click_element`
(`structured_explorer.py` lines 470-520): a plain click first; the
fallback ladder (overlay dismissal plus retry, forced click,
scroll-into-view retry, DOM-level click) runs only when the plain click's
error message contains `intercepts pointer events`; any other failure
returns `False` at once.  The returned trace lists the strategies
attempted.  `_dismiss_overlays` swallows all its own errors and is
modelled as a no-op between the first and second attempt. -/
def safe_click_element (c : ClickEnv) : Bool × List Strategy :=
  match c.plain with
  | .ok _ => (true, [.plain])
  | .error e =>
    if strContains e "intercepts pointer events" then
      match c.retryAfterDismiss with
      | .ok _ => (true, [.plain, .dismissRetry])
      | .error _ =>
        match c.forced with
        | .ok _ => (true, [.plain, .dismissRetry, .forced])
        | .error _ =>
          match c.scrollRetry with
          | .ok _ => (true, [.plain, .dismissRetry, .forced, .scrollRetry])
          | .error _ =>
            match c.jsClick with
            | .ok _ => (true, [.plain, .dismissRetry, .forced, .scrollRetry, .js])
            | .error _ => (false, [.plain, .dismissRetry, .forced, .scrollRetry, .js])
    else (false, [.plain])

/-- One dropdown trigger as `_test_dropdowns` sees it: visibility, the
click environments of its open and close clicks, whether its
`aria-expanded` state changes, and the analyzer outcome for its open-state
screenshot. -/
structure DropElem where
  visible : Bool
  openClick : ClickEnv
  closeClick : ClickEnv
  ariaChanged : Bool
  screenshotOk : Bool
  analyzerErr : Bool
  bugs : List Bug
deriving Repr, DecidableEq

/-- Findings contributed by one dropdown element after a successful open
click: its screenshot's analyzer findings unless the screenshot failed or
the analyzer errored. -/
def dropElemBugs (e : DropElem) : List Bug :=
  if e.screenshotOk && !e.analyzerErr then e.bugs else []

/-- Embedding of the per-element interaction skeleton of
`StructuredExplorer._test_dropdowns` (lines 373-468): the first three
elements per selector are taken, invisible ones skipped; each visible
element is opened through `safe_click_element`, a failed safe-click skips
just that element (`continue`), and aria-toggled elements are closed with
a second safe-click whose outcome is ignored (others get a body
click/Escape, which cannot fail the loop).  Returns the collected findings
and each attempted element's open safe-click result. -/
def test_dropdowns (selectors : List (List DropElem)) :
    List Bug × List (Bool × List Strategy) :=
  let elems := selectors.flatMap (fun es => (es.take 3).filter (fun e => e.visible))
  (elems.flatMap (fun e =>
      if (safe_click_element e.openClick).1 then dropElemBugs e else []),
   elems.map (fun e => safe_click_element e.openClick))

/-- One modal trigger as `_test_modals` sees it: visibility, the outcome
of its single plain `element.click()`, and the analyzer outcome for its
open-state screenshot. -/
structure ModalElem where
  visible : Bool
  click : Except String Unit
  screenshotOk : Bool
  analyzerErr : Bool
  bugs : List Bug
deriving Repr, DecidableEq

/-- Findings contributed by one modal element whose click succeeded. -/
def modalElemBugs (e : ModalElem) : List Bug :=
  if e.screenshotOk && !e.analyzerErr then e.bugs else []

/-- Per-selector element loop of `StructuredExplorer._test_modals`
(lines 554-621): elements are clicked with a plain `element.click()` (no
safe-click ladder); a click exception aborts the remaining elements of
this selector (the `except` around the loop) while later selectors still
run.  Returns collected findings and the trace of click attempts. -/
def modalSelectorStep : List ModalElem → List Bug × List (Except String Unit)
  | [] => ([], [])
  | e :: rest =>
    if e.visible then
      match e.click with
      | .error err => ([], [.error err])
      | .ok _ =>
        let r := modalSelectorStep rest
        (modalElemBugs e ++ r.1, .ok () :: r.2)
    else modalSelectorStep rest

/-- Embedding of `StructuredExplorer._test_modals`: the first two elements
per selector pattern, each selector's loop guarded by its own
exception handler. -/
def test_modals (selectors : List (List ModalElem)) :
    List Bug × List (List (Except String Unit)) :=
  (selectors.flatMap (fun es => (modalSelectorStep (es.take 2)).1),
   selectors.map (fun es => (modalSelectorStep (es.take 2)).2))

/-- One accordion trigger as `_test_accordions` sees it: visibility, the
outcomes of its plain open and close `element.click()` calls, and the
analyzer outcome for its expanded-state screenshot. -/
structure AccordionElem where
  visible : Bool
  openClick : Except String Unit
  closeClick : Except String Unit
  screenshotOk : Bool
  analyzerErr : Bool
  bugs : List Bug
deriving Repr, DecidableEq

/-- Findings contributed by one accordion element whose open click
succeeded. -/
def accordionElemBugs (e : AccordionElem) : List Bug :=
  if e.screenshotOk && !e.analyzerErr then e.bugs else []

/-- Per-selector element loop of `StructuredExplorer._test_accordions`
(lines 623-678): plain open click, screenshot/analysis, plain close click;
an exception from either click aborts the remaining elements of this
selector. -/
def accordionSelectorStep : List AccordionElem → List Bug × List (Except String Unit)
  | [] => ([], [])
  | e :: rest =>
    if e.visible then
      match e.openClick with
      | .error err => ([], [.error err])
      | .ok _ =>
        match e.closeClick with
        | .error err => (accordionElemBugs e, [.ok (), .error err])
        | .ok _ =>
          let r := accordionSelectorStep rest
          (accordionElemBugs e ++ r.1, .ok () :: .ok () :: r.2)
    else accordionSelectorStep rest

/-- Embedding of `StructuredExplorer._test_accordions`: the first three
elements per selector pattern, each selector's loop guarded by its own
exception handler. -/
def test_accordions (selectors : List (List AccordionElem)) :
    List Bug × List (List (Except String Unit)) :=
  (selectors.flatMap (fun es => (accordionSelectorStep (es.take 3)).1),
   selectors.map (fun es => (accordionSelectorStep (es.take 3)).2))

end Explorer

namespace Explorer

/-- Recorder-visible actions performed inside one viewport's exploration
(field fills and widget clicks recorded by `_fill_input_with_edge_case_data`
and `_test_dropdowns`). -/
inductive RecAction where
  | click (selector text description : String)
  | fill (selector value field : String)
deriving Repr, DecidableEq

/-- Apply one recorded action to the recorder. -/
def applyRec (r : ActionRecorder) : RecAction → ActionRecorder
  | .click s t d => r.record_click s t d
  | .fill s v f => r.record_fill s v f

/-- Observable outcome of `_explore_viewport` for one viewport, as the
environment (browser driver, screenshotter, analyzer) determines it:
either the viewport completes, contributing analyzer findings to
`self.bugs` and actions to the recorder, or an uncaught exception escapes
(after the contributions made before the raise), or `set_viewport_size`
itself raises before the viewport change is recorded. -/
inductive VpOutcome where
  | ok (bugs : List Bug) (acts : List RecAction)
  | err (msg : String) (bugs : List Bug) (acts : List RecAction)
  | resizeErr (msg : String)
deriving Repr, DecidableEq

/-- Environment of one `run_complete_exploration` call.  `collect_outlinks`
catches all its errors internally (`link_detection.py` lines 27-43), so
outlinks are total; the performance-timings collection and the per-viewport
work may raise. -/
structure ExploreEnv where
  timings : Except String (List (String × Int))
  outlinks : List String
  viewport : String → VpOutcome
  artifacts : List String

/-- The fixed viewport sequence `DEFAULT_VIEWPORTS` with the keys the code
formats from width and height. -/
def defaultViewports : List (String × String) :=
  [("desktop", "1280x800"), ("tablet", "768x1024"), ("mobile", "375x667")]

/-- State of the `try` block of `run_complete_exploration`: the result
under construction, `self.bugs`, and `self.action_recorder`. -/
structure ExplState where
  result : PageResult
  bugs : List Bug
  recorder : ActionRecorder
deriving Repr

/-- The viewport loop of `run_complete_exploration` (lines 70-82): resize,
record the viewport change, explore; an exception stops the loop and is
reported with the state at the raise. -/
def runViewports (env : ExploreEnv) :
    List (String × String) → ExplState → ExplState × Option String
  | [], st => (st, none)
  | (name, key) :: rest, st =>
    match env.viewport name with
    | .resizeErr msg => (st, some msg)
    | .err msg b acts =>
      let r1 := st.recorder.record_viewport_change key ("Change to " ++ name ++ " viewport")
      let r2 := acts.foldl applyRec r1
      ({ st with recorder := r2, bugs := st.bugs ++ b }, some msg)
    | .ok b acts =>
      let r1 := st.recorder.record_viewport_change key ("Change to " ++ name ++ " viewport")
      let r2 := acts.foldl applyRec r1
      runViewports env rest { st with recorder := r2, bugs := st.bugs ++ b }

/-- Embedding of `StructuredExplorer.run_complete_exploration`
(`structured_explorer.py` lines 43-102): record the initial navigation,
then inside `try`: collect timings, collect outlinks, loop the three
viewports; on success extend `result.findings` with `self.bugs` and
collect viewport artifacts.  Any exception is caught once: a single
`Logic`/`high` bug carrying the message is appended to `result.findings`
as built so far (`self.bugs` and the artifacts are not transferred on this
path). -/
def run_complete_exploration (env : ExploreEnv) (page_url : String) : PageResult :=
  let recorder0 := (ActionRecorder.mk page_url []).record_navigation page_url
    "Navigate to page for testing"
  let result0 : PageResult := { page_url := page_url }
  match env.timings with
  | .error msg =>
    let bug := create_bug_with_repro_steps (some recorder0) "Logic" "high" page_url
      ("Exploration error: " ++ msg)
      (some "Review page structure and exploration compatibility") none
    { result0 with findings := result0.findings ++ [bug] }
  | .ok t =>
    let result2 : PageResult := { result0 with timings := t, outlinks := env.outlinks }
    match runViewports env defaultViewports ⟨result2, [], recorder0⟩ with
    | (st, some msg) =>
      let bug := create_bug_with_repro_steps (some st.recorder) "Logic" "high" page_url
        ("Exploration error: " ++ msg)
        (some "Review page structure and exploration compatibility") none
      { st.result with findings := st.result.findings ++ [bug] }
    | (st, none) =>
      { st.result with
          findings := st.result.findings ++ st.bugs,
          viewport_artifacts := env.artifacts }

end Explorer

namespace Crawler

/-- Modelled from the spec: `src/orchestrator/crawler.py` is not among the
sources; configuration defaults follow design section 4.2 and
`tests/orchestrator/test_crawler.py` (`test_crawler_default_limits`). -/
structure Config where
  max_depth : Nat := 3
  max_pages : Nat := 50
  max_retries : Nat := 3
deriving Repr, DecidableEq

/-- Retry loop: `n` remaining attempts, `calls` made so far; the inspector
is a function from the attempt index to its outcome. -/
def retryGo (inspect : Nat → Except String Explorer.PageResult) :
    Nat → Nat → Option Explorer.PageResult × Nat
  | 0, calls => (none, calls)
  | n + 1, calls =>
    match inspect calls with
    | .ok r => (some r, calls + 1)
    | .error _ => retryGo inspect n (calls + 1)

/-- Modelled from the spec: `Crawler._inspect_page_with_retry` attempts
`inspect` up to `max_retries` times, counts every thrown error as a failed
attempt, and returns `none` (never an exception) after exhausting retries
(design section 4.2; `TestPageInspectionWithRetry`).  Also returns the
number of calls made. -/
def inspect_page_with_retry (max_retries : Nat)
    (inspect : Nat → Except String Explorer.PageResult) :
    Option Explorer.PageResult × Nat :=
  retryGo inspect max_retries 0

/-- One row of `CrawlReport.pages`. -/
structure PageEntry where
  url : String
  depth : Nat
  status : Option Nat
deriving Repr, DecidableEq

/-- The crawl report (`core/types.py`, `CrawlReport`); the wall-clock
`scanned_at` field is not modelled. -/
structure CrawlReport where
  seed_url : String
  pages_total : Nat
  bugs_total : Nat
  findings : List Explorer.Bug
  pages : List PageEntry
deriving Repr, DecidableEq

/-- Frontier state of the BFS crawl (design section 3): visited
fingerprints, FIFO queue, accumulated pages and findings, the pages
visited counter, and the log of URLs actually handed to the inspector. -/
structure CrawlState where
  visited : List String
  queue : List (String × Nat)
  pages : List PageEntry
  findings : List Explorer.Bug
  pagesCount : Nat
  inspected : List String
deriving Repr

/-- Modelled from the spec: the frontier loop of `Crawler.crawl_site`
(design section 4.2).  Dequeue; skip already-visited fingerprints without
counting; otherwise mark visited, count, inspect with retry; on success
record the page and findings and enqueue the prepared outlinks when depth
allows; on exhausted retries record the page as failed.  The loop stops
when the queue empties or `max_pages` pages have been visited.
`fingerprint` is the dedup key function and `linkPrep` decides whether
(and in which normalized form) an outlink is enqueued, given the visited
set. -/
def crawlLoop (cfg : Config) (fingerprint : String → String)
    (inspect : String → Nat → Except String Explorer.PageResult)
    (linkPrep : String → List String → Option String)
    (st : CrawlState) : CrawlState :=
  match _hq : st.queue with
  | [] => st
  | (url, depth) :: qrest =>
    if _hc : st.pagesCount < cfg.max_pages then
      if st.visited.contains (fingerprint url) then
        crawlLoop cfg fingerprint inspect linkPrep { st with queue := qrest }
      else
        match (inspect_page_with_retry cfg.max_retries (inspect url)).1 with
        | some r =>
          crawlLoop cfg fingerprint inspect linkPrep
            { visited := fingerprint url :: st.visited,
              queue := qrest ++ (if depth < cfg.max_depth then
                  r.outlinks.filterMap (fun l =>
                    (linkPrep l (fingerprint url :: st.visited)).map
                      (fun u => (u, depth + 1)))
                else []),
              pages := st.pages ++ [⟨url, depth, r.status⟩],
              findings := st.findings ++ r.findings,
              pagesCount := st.pagesCount + 1,
              inspected := st.inspected ++ [url] }
        | none =>
          crawlLoop cfg fingerprint inspect linkPrep
            { visited := fingerprint url :: st.visited, queue := qrest,
              pages := st.pages ++ [⟨url, depth, none⟩],
              findings := st.findings,
              pagesCount := st.pagesCount + 1,
              inspected := st.inspected ++ [url] }
    else st
termination_by (cfg.max_pages - st.pagesCount, st.queue.length)
decreasing_by
  · apply Prod.Lex.right
    rw [_hq]
    simp
  · apply Prod.Lex.left
    omega
  · apply Prod.Lex.left
    omega

/-- Modelled from the spec: `Crawler._build_crawl_report` (design section
4.2): `pages_total` is the number of recorded pages, `bugs_total` the
number of accumulated findings, both lists in crawl order. -/
def build_crawl_report (seed : String) (st : CrawlState) : CrawlReport :=
  { seed_url := seed, pages_total := st.pages.length,
    bugs_total := st.findings.length, findings := st.findings,
    pages := st.pages }

/-- Modelled from the spec: `Crawler.crawl_site` seeds the queue with
`(seed, 0)`, runs the frontier loop, and assembles the report.  The list of
inspected URLs is returned alongside. -/
def crawl_site (cfg : Config) (seed : String) (fingerprint : String → String)
    (inspect : String → Nat → Except String Explorer.PageResult)
    (linkPrep : String → List String → Option String) :
    CrawlReport × List String :=
  let st := crawlLoop cfg fingerprint inspect linkPrep ⟨[], [(seed, 0)], [], [], 0, []⟩
  (build_crawl_report seed st, st.inspected)

end Crawler

/-- Finding produced by the analyzer in the desktop viewport of the C1
scenario. -/
def baselineBugC1 : Explorer.Bug :=
  ⟨"b0", "UI", "low", "https://example.com", "baseline overflow", none, {}, []⟩

/-- Exploration environment where the desktop viewport completes with one
finding and the tablet viewport raises. -/
def envC1 : Explorer.ExploreEnv :=
  { timings := .ok [("load", 12)],
    outlinks := ["https://example.com/about"],
    viewport := fun name =>
      if name = "desktop" then .ok [baselineBugC1] []
      else .err "Screenshot timeout" [] [],
    artifacts := ["evidence/shot1.png"] }

/-- Recorder histories used by the C8 counterexample: the same single
description, recorded once as a click and once as a fill. -/
def recClickC8 : Explorer.ActionRecorder :=
  ⟨"https://example.com", [⟨1, "click", some "#b", some "OK", "Press the button", none⟩]⟩

/-- Companion recorder with the action kind changed to `fill`. -/
def recFillC8 : Explorer.ActionRecorder :=
  ⟨"https://example.com", [⟨1, "fill", some "#b", some "OK", "Press the button", none⟩]⟩

namespace Py

theorem splitOnce_eq_none {c : Char} {l : List Char} :
    splitOnce c l = none ↔ c ∉ l := by
  induction l with
  | nil => simp [splitOnce]
  | cons x xs ih =>
    by_cases hx : x = c
    · subst hx; simp [splitOnce]
    · simp only [splitOnce, if_neg hx, List.mem_cons]
      cases h : splitOnce c xs with
      | none => simp [ih.mp h, Ne.symm hx]
      | some p =>
        constructor
        · intro hc; cases hc
        · intro hc
          exact absurd (ih.mpr (fun hm => hc (Or.inr hm))) (by simp [h])

theorem splitOnce_eq_some {c : Char} {l a b : List Char}
    (h : splitOnce c l = some (a, b)) : l = a ++ c :: b ∧ c ∉ a := by
  induction l generalizing a with
  | nil => simp [splitOnce] at h
  | cons x xs ih =>
    by_cases hx : x = c
    · subst hx
      rw [splitOnce, if_pos rfl] at h
      simp only [Option.some.injEq, Prod.mk.injEq] at h
      obtain ⟨h1, h2⟩ := h
      subst h1; subst h2
      exact ⟨rfl, by simp⟩
    · rw [splitOnce, if_neg hx] at h
      cases hrec : splitOnce c xs with
      | none => rw [hrec] at h; exact absurd h (by simp)
      | some p =>
        rcases p with ⟨p1, p2⟩
        rw [hrec] at h
        simp only [Option.some.injEq, Prod.mk.injEq] at h
        obtain ⟨ha, hb⟩ := h
        obtain ⟨hxs, hna⟩ := ih (a := p1) (by rw [hrec, hb])
        subst ha
        refine ⟨by rw [hxs]; rfl, ?_⟩
        intro hm
        rcases List.mem_cons.mp hm with h1 | h2
        · exact hx h1.symm
        · exact hna h2

theorem splitOnce_append_left {c : Char} {a : List Char} (b : List Char)
    (h : c ∉ a) : splitOnce c (a ++ c :: b) = some (a, b) := by
  induction a with
  | nil => simp [splitOnce]
  | cons x xs ih =>
    have hx : ¬ x = c := fun he => h (by simp [he])
    have hxs : c ∉ xs := fun hm => h (List.mem_cons_of_mem _ hm)
    simp only [List.cons_append]
    rw [splitOnce, if_neg hx, ih hxs]

theorem splitOnce_append_none {c : Char} {a : List Char} (b : List Char)
    (h : c ∉ a) :
    splitOnce c (a ++ b) = (splitOnce c b).map (fun x => (a ++ x.1, x.2)) := by
  induction a with
  | nil => cases h' : splitOnce c b <;> simp [h']
  | cons x xs ih =>
    have hx : ¬ x = c := fun he => h (by simp [he])
    have hxs : c ∉ xs := fun hm => h (List.mem_cons_of_mem _ hm)
    simp only [List.cons_append]
    rw [splitOnce, if_neg hx, ih hxs]
    cases h' : splitOnce c b <;> simp [h']

theorem takeWhile_append_stop {p : Char → Bool} {x : Char} (a b : List Char)
    (hx : p x = false) : (a ++ x :: b).takeWhile p = a.takeWhile p := by
  induction a with
  | nil => simp [List.takeWhile, hx]
  | cons y ys ih =>
    cases hy : p y <;> simp [List.takeWhile, hy, ih]

theorem dropWhile_append_stop {p : Char → Bool} {x : Char} (a b : List Char)
    (hx : p x = false) : (a ++ x :: b).dropWhile p = a.dropWhile p ++ x :: b := by
  induction a with
  | nil => simp [List.dropWhile, hx]
  | cons y ys ih =>
    cases hy : p y <;> simp [List.dropWhile, hy, ih]

theorem all_eq_false_of_mem {p : Char → Bool} {x : Char} {l : List Char}
    (hm : x ∈ l) (hx : p x = false) : l.all p = false := by
  rw [List.all_eq_false]
  exact ⟨x, hm, by simp [hx]⟩

end Py

namespace Py

theorem schemeSplit_of_some {url pre rest : List Char}
    (hsp : splitOnce ':' url = some (pre, rest)) :
    schemeSplit url =
      if !pre.isEmpty && (pre.headD ' ').isAlpha && pre.all schemeChar
      then (pre.map Char.toLower, rest) else ([], url) := by
  unfold schemeSplit
  rw [hsp]

theorem schemeSplit_of_none {url : List Char}
    (hsp : splitOnce ':' url = none) : schemeSplit url = ([], url) := by
  unfold schemeSplit
  rw [hsp]

theorem schemeSplit_append_hash {R : List Char} (F : List Char)
    (_h : '#' ∉ R) :
    schemeSplit (R ++ '#' :: F) = ((schemeSplit R).1, (schemeSplit R).2 ++ '#' :: F) := by
  cases hsp : splitOnce ':' R with
  | some p =>
    rcases p with ⟨pre, rest⟩
    have h2 := splitOnce_eq_some hsp
    have hX : splitOnce ':' (R ++ '#' :: F) = some (pre, rest ++ '#' :: F) := by
      rw [h2.1, List.append_assoc]
      exact splitOnce_append_left _ h2.2
    rw [schemeSplit_of_some hX, schemeSplit_of_some hsp]
    by_cases hc : (!pre.isEmpty && (pre.headD ' ').isAlpha && pre.all schemeChar) = true
    · rw [if_pos hc, if_pos hc]
    · rw [if_neg hc, if_neg hc]
  | none =>
    have hnc : ':' ∉ R := splitOnce_eq_none.mp hsp
    have hall : splitOnce ':' (R ++ '#' :: F) =
        (splitOnce ':' ('#' :: F)).map (fun x => (R ++ x.1, x.2)) :=
      splitOnce_append_none _ hnc
    rw [schemeSplit_of_none hsp]
    cases hf : splitOnce ':' ('#' :: F) with
    | none =>
      rw [hf] at hall
      simp only [Option.map_none'] at hall
      rw [schemeSplit_of_none hall]
    | some q =>
      rcases q with ⟨q1, q2⟩
      rw [hf] at hall
      simp only [Option.map_some'] at hall
      have hq := splitOnce_eq_some hf
      have hq1 : '#' ∈ R ++ q1 := by
        rcases q1 with _ | ⟨z, zs⟩
        · exfalso
          have h1 := hq.1
          simp only [List.nil_append] at h1
          have : ('#' : Char) = ':' := by
            have := List.head_eq_of_cons_eq h1
            exact this
          cases this
        · have hz : ('#' : Char) = z := by
            have h1 := hq.1
            simp only [List.cons_append] at h1
            exact List.head_eq_of_cons_eq h1
          rw [← hz]
          simp
      have hfail : (R ++ q1).all schemeChar = false :=
        all_eq_false_of_mem hq1 (by decide)
      rw [schemeSplit_of_some hall]
      have hcond : (!(R ++ q1).isEmpty && ((R ++ q1).headD ' ').isAlpha &&
          (R ++ q1).all schemeChar) = false := by
        rw [hfail, Bool.and_false]
      have hne : ¬ ((!(R ++ q1).isEmpty && ((R ++ q1).headD ' ').isAlpha &&
          (R ++ q1).all schemeChar) = true) := by
        rw [hcond]; simp
      rw [if_neg hne]

theorem schemeSplit_snd_mem {x : Char} {R : List Char}
    (h : x ∈ (schemeSplit R).2) : x ∈ R := by
  cases hsp : splitOnce ':' R with
  | none => rw [schemeSplit_of_none hsp] at h; exact h
  | some p =>
    rcases p with ⟨pre, rest⟩
    rw [schemeSplit_of_some hsp] at h
    by_cases hc : (!pre.isEmpty && (pre.headD ' ').isAlpha && pre.all schemeChar) = true
    · rw [if_pos hc] at h
      rw [(splitOnce_eq_some hsp).1]
      simp only [List.mem_append, List.mem_cons]
      exact Or.inr (Or.inr h)
    · rw [if_neg hc] at h
      exact h

theorem netlocSplit_append_hash {u : List Char} (F : List Char)
    (_h : '#' ∉ u) :
    netlocSplit (u ++ '#' :: F) = ((netlocSplit u).1, (netlocSplit u).2 ++ '#' :: F) := by
  match u with
  | [] =>
    have : (('#' :: F).take 2 = ['/', '/']) = False := by
      simp only [List.take_succ_cons, eq_iff_iff, iff_false]
      intro hc
      exact absurd (List.head_eq_of_cons_eq hc) (by decide)
    simp [netlocSplit, this]
  | [a] =>
    have : ((a :: '#' :: F).take 2 = ['/', '/']) = False := by
      simp only [List.take_succ_cons, List.take_zero, eq_iff_iff, iff_false]
      intro hc
      have := List.tail_eq_of_cons_eq hc
      exact absurd (List.head_eq_of_cons_eq this) (by decide)
    have h1 : (([a] : List Char).take 2 = ['/', '/']) = False := by
      simp only [eq_iff_iff, iff_false]
      intro hc
      have : (([a] : List Char).take 2).length = 1 := by simp
      rw [hc] at this
      simp at this
    simp [netlocSplit, this, h1]
  | a :: b :: rest =>
    by_cases hab : (a :: b :: rest).take 2 = ['/', '/']
    · simp only [List.take_succ_cons, List.take_zero] at hab
      have ha := List.head_eq_of_cons_eq hab
      have hb := List.head_eq_of_cons_eq (List.tail_eq_of_cons_eq hab)
      subst ha; subst hb
      have ht := takeWhile_append_stop (p := fun c => !netlocDelim c) (x := '#')
        rest F (by decide)
      have hd := dropWhile_append_stop (p := fun c => !netlocDelim c) (x := '#')
        rest F (by decide)
      simp only [List.cons_append]
      simp [netlocSplit, ht, hd]
    · simp only [List.take_succ_cons, List.take_zero] at hab
      simp only [List.cons_append]
      simp [netlocSplit, hab]

theorem netlocSplit_snd_mem {x : Char} {u : List Char}
    (h : x ∈ (netlocSplit u).2) : x ∈ u := by
  unfold netlocSplit at h
  by_cases hc : u.take 2 = ['/', '/']
  · rw [if_pos hc] at h
    have hsub := (List.dropWhile_sublist (l := u.drop 2) (p := fun c => !netlocDelim c)).mem h
    exact (List.drop_sublist 2 u).mem hsub
  · rw [if_neg hc] at h
    exact h

theorem splitCore_append_hash {R : List Char} (F : List Char)
    (h : '#' ∉ R) :
    splitCore (R ++ '#' :: F) =
      (splitCore R).map (fun s => ⟨s.scheme, s.netloc, s.path, s.query, F⟩) := by
  have hs := schemeSplit_append_hash F h
  have hu1 : '#' ∉ (schemeSplit R).2 := fun hm => h (schemeSplit_snd_mem hm)
  have hn := netlocSplit_append_hash (u := (schemeSplit R).2) F hu1
  have hu2 : '#' ∉ (netlocSplit (schemeSplit R).2).2 :=
    fun hm => hu1 (netlocSplit_snd_mem hm)
  have hfragX : fragSplit ((netlocSplit (schemeSplit R).2).2 ++ '#' :: F) =
      ((netlocSplit (schemeSplit R).2).2, F) := by
    rw [fragSplit, splitOnce_append_left _ hu2]
  have hfragR : fragSplit (netlocSplit (schemeSplit R).2).2 =
      ((netlocSplit (schemeSplit R).2).2, []) := by
    rw [fragSplit, splitOnce_eq_none.mpr hu2]
  by_cases hb : bracketBad (netlocSplit (schemeSplit R).2).1 = true
  · simp only [splitCore, hs, hn, hb, if_pos, if_true, Except.map]
  · simp only [splitCore, hs, hn, hb, hfragX, hfragR, if_neg, Bool.false_eq_true,
      if_false, Except.map]

end Py

namespace Py

theorem takeWhile_eq_self_of_all {p : Char → Bool} {l : List Char}
    (h : ∀ x ∈ l, p x = true) : l.takeWhile p = l := by
  induction l with
  | nil => rfl
  | cons x xs ih =>
    have hx := h x (by simp)
    simp [List.takeWhile_cons, hx, ih (fun y hy => h y (by simp [hy]))]

theorem filter_takeWhile_comm {p q : Char → Bool}
    (hpq : ∀ x, q x = false → p x = true) (l : List Char) :
    (l.takeWhile q).filter p = (l.filter p).takeWhile q := by
  induction l with
  | nil => rfl
  | cons x xs ih =>
    cases hq : q x with
    | false =>
      have hp := hpq x hq
      simp [List.takeWhile_cons, List.filter_cons, hq, hp]
    | true =>
      cases hp : p x with
      | false => simp [List.takeWhile_cons, List.filter_cons, hq, hp, ih]
      | true => simp [List.takeWhile_cons, List.filter_cons, hq, hp, ih]

theorem cleanUrl_takeWhile_hash (url : List Char) :
    cleanUrl (url.takeWhile (fun c => c != '#')) = (cleanUrl url).takeWhile (fun c => c != '#') := by
  unfold cleanUrl
  exact filter_takeWhile_comm (fun x hx => by
    have hx' : x = '#' := by simpa using hx
    rw [hx']; decide) url

end Py

namespace URLUtils

theorem normalize_url_stripFrag (url : List Char) :
    normalize_url url = normalize_url (url.takeWhile (fun c => c != '#')) := by
  have hcomm := Py.cleanUrl_takeWhile_hash url
  cases hsp : Py.splitOnce '#' (Py.cleanUrl url) with
  | none =>
    have hnm := Py.splitOnce_eq_none.mp hsp
    have hall : ∀ x ∈ Py.cleanUrl url, (x != '#') = true := by
      intro x hx
      simp only [bne_iff_ne, ne_eq]
      intro he; exact hnm (he ▸ hx)
    have heq : (Py.cleanUrl url).takeWhile (fun c => c != '#') = Py.cleanUrl url :=
      Py.takeWhile_eq_self_of_all hall
    unfold normalize_url Py.pyUrlparse Py.pyUrlsplit
    rw [hcomm, heq]
  | some p =>
    rcases p with ⟨R, F⟩
    obtain ⟨hu, hR⟩ := Py.splitOnce_eq_some hsp
    have hstrip : (Py.cleanUrl url).takeWhile (fun c => c != '#') = R := by
      rw [hu, Py.takeWhile_append_stop (x := '#') R F (by decide)]
      exact Py.takeWhile_eq_self_of_all (fun x hx => by
        simp only [bne_iff_ne, ne_eq]
        intro he; exact hR (he ▸ hx))
    have hcore := Py.splitCore_append_hash F hR
    rw [← hu] at hcore
    unfold normalize_url Py.pyUrlparse Py.pyUrlsplit
    rw [hcomm, hstrip, hcore]
    cases hRc : Py.splitCore R with
    | error e => rfl
    | ok s => rfl

end URLUtils

namespace URLUtils

theorem normalize_url_of_ok {url : List Char} {p : Py.UrlParse}
    (h : Py.pyUrlparse url = .ok p) :
    normalize_url url = .ok (Py.pyUrlunparse ⟨p.scheme, p.netloc.map Char.toLower,
      (if rstripSlash p.path = [] then ['/'] else rstripSlash p.path),
      p.params, p.query, []⟩) := by
  unfold normalize_url
  rw [h]
  rfl

theorem normalize_url_of_error {url : List Char} {e : String}
    (h : Py.pyUrlparse url = .error e) : normalize_url url = .error e := by
  unfold normalize_url
  rw [h]
  rfl

theorem detect_of_ok {url : List Char} {p : Py.UrlParse}
    (h : Py.pyUrlparse url = .ok p) :
    detect_path_parameters url = .ok (Py.pyUrlunparse ⟨p.scheme, p.netloc,
      (if (Py.splitSeg '/' (stripSlash p.path)).map wildcardSeg = [[]] then ['/']
       else '/' :: List.intercalate ['/'] ((Py.splitSeg '/' (stripSlash p.path)).map wildcardSeg)),
      p.params, p.query, p.fragment⟩) := by
  unfold detect_path_parameters
  rw [h]
  rfl

theorem detect_of_error {url : List Char} {e : String}
    (h : Py.pyUrlparse url = .error e) : detect_path_parameters url = .error e := by
  unfold detect_path_parameters
  rw [h]
  rfl

theorem exceptBindOk {α β : Type} (a : α) (f : α → Except String β) :
    (do let x ← Except.ok a; f x) = f a := rfl

theorem should_crawl_of_host_ne {url seed : List Char} {p : Py.UrlParse}
    (visited : List (List Char)) (h : Py.pyUrlparse url = .ok p)
    (hne : p.netloc.map Char.toLower ≠ seed.map Char.toLower) :
    should_crawl_url url seed visited = .ok false := by
  unfold should_crawl_url
  rw [h, exceptBindOk]
  rw [if_pos hne]
  rfl

theorem should_crawl_of_host_eq {url seed : List Char} {p : Py.UrlParse}
    (visited : List (List Char)) (h : Py.pyUrlparse url = .ok p)
    (heq : p.netloc.map Char.toLower = seed.map Char.toLower) :
    should_crawl_url url seed visited =
      (detect_path_parameters url).map (fun n => !(visited.contains n)) := by
  unfold should_crawl_url
  rw [h, exceptBindOk]
  rw [if_neg (by simp [heq])]
  cases hd : detect_path_parameters url <;> rfl

theorem should_crawl_of_error {url seed : List Char} {e : String}
    (visited : List (List Char)) (h : Py.pyUrlparse url = .error e) :
    should_crawl_url url seed visited = .error e := by
  unfold should_crawl_url
  rw [h]
  rfl

theorem map_wildcard_of_segRel : ∀ {l1 l2 : List (List Char)},
    segRel l1 l2 = true → l1.map wildcardSeg = l2.map wildcardSeg := by
  intro l1
  induction l1 with
  | nil => intro l2 h; cases l2 with
    | nil => rfl
    | cons t t2 => simp [segRel] at h
  | cons s t1 ih =>
    intro l2 h
    cases l2 with
    | nil => simp [segRel] at h
    | cons t t2 =>
      rw [segRel, Bool.and_eq_true] at h
      obtain ⟨h1, h2⟩ := h
      rw [List.map_cons, List.map_cons, ih h2]
      rw [Bool.or_eq_true] at h1
      rcases h1 with he | hid
      · rw [eq_of_beq he]
      · rw [Bool.and_eq_true] at hid
        unfold wildcardSeg
        rw [hid.1, hid.2]
        simp

end URLUtils








namespace Crawler

theorem retryGo_all_fail (inspect : Nat → Except String Explorer.PageResult)
    (hfail : ∀ k, ∃ e, inspect k = .error e) :
    ∀ n calls, retryGo inspect n calls = (none, calls + n) := by
  intro n
  induction n with
  | zero => intro calls; simp [retryGo]
  | succ m ih =>
    intro calls
    obtain ⟨e, he⟩ := hfail calls
    rw [retryGo, he, ih (calls + 1)]
    simp
    omega

theorem retryGo_success (inspect : Nat → Except String Explorer.PageResult) :
    ∀ j n calls r, j < n → inspect (calls + j) = .ok r →
      (∀ i, i < j → ∃ e, inspect (calls + i) = .error e) →
      retryGo inspect n calls = (some r, calls + j + 1) := by
  intro j
  induction j with
  | zero =>
    intro n calls r hn hok _
    match n, hn with
    | m + 1, _ =>
      rw [retryGo]
      simp only [Nat.add_zero] at hok
      rw [hok]
  | succ k ih =>
    intro n calls r hn hok hprev
    match n, hn with
    | m + 1, hn =>
      obtain ⟨e, he⟩ := hprev 0 (Nat.succ_pos k)
      simp only [Nat.add_zero] at he
      rw [retryGo, he]
      have hok' : inspect (calls + 1 + k) = .ok r := by
        have : calls + 1 + k = calls + (k + 1) := by omega
        rw [this]; exact hok
      have hprev' : ∀ i, i < k → ∃ e, inspect (calls + 1 + i) = .error e := by
        intro i hi
        have : calls + 1 + i = calls + (i + 1) := by omega
        rw [this]
        exact hprev (i + 1) (by omega)
      have := ih m (calls + 1) r (by omega) hok' hprev'
      rw [this]
      have : calls + 1 + k + 1 = calls + (k + 1) + 1 := by omega
      rw [this]

theorem crawlLoop_nil {cfg : Config} {fp : String → String}
    {inspect : String → Nat → Except String Explorer.PageResult}
    {linkPrep : String → List String → Option String} {st : CrawlState}
    (hq : st.queue = []) : crawlLoop cfg fp inspect linkPrep st = st := by
  rw [crawlLoop.eq_def]
  split
  next => rfl
  next url depth qrest heq => rw [hq] at heq; cases heq

theorem crawlLoop_stop {cfg : Config} {fp : String → String}
    {inspect : String → Nat → Except String Explorer.PageResult}
    {linkPrep : String → List String → Option String} {st : CrawlState}
    {url : String} {depth : Nat} {qrest : List (String × Nat)}
    (_hq : st.queue = (url, depth) :: qrest)
    (hge : ¬ st.pagesCount < cfg.max_pages) :
    crawlLoop cfg fp inspect linkPrep st = st := by
  rw [crawlLoop.eq_def]
  split
  next heq => rfl
  next url2 depth2 qrest2 heq =>
    rw [dif_neg hge]

theorem crawlLoop_skip {cfg : Config} {fp : String → String}
    {inspect : String → Nat → Except String Explorer.PageResult}
    {linkPrep : String → List String → Option String} {st : CrawlState}
    {url : String} {depth : Nat} {qrest : List (String × Nat)}
    (hq : st.queue = (url, depth) :: qrest)
    (hlt : st.pagesCount < cfg.max_pages)
    (hvis : st.visited.contains (fp url) = true) :
    crawlLoop cfg fp inspect linkPrep st =
      crawlLoop cfg fp inspect linkPrep { st with queue := qrest } := by
  rw [crawlLoop.eq_def]
  split
  next heq => rw [hq] at heq; cases heq
  next url2 depth2 qrest2 heq =>
    rw [hq] at heq
    have hs : (url = url2 ∧ depth = depth2) ∧ qrest = qrest2 := by simpa using heq
    obtain ⟨⟨hu, hd⟩, hq2⟩ := hs
    subst hu; subst hd; subst hq2
    rw [dif_pos hlt, if_pos hvis]

theorem crawlLoop_visit_ok {cfg : Config} {fp : String → String}
    {inspect : String → Nat → Except String Explorer.PageResult}
    {linkPrep : String → List String → Option String} {st : CrawlState}
    {url : String} {depth : Nat} {qrest : List (String × Nat)}
    {r : Explorer.PageResult}
    (hq : st.queue = (url, depth) :: qrest)
    (hlt : st.pagesCount < cfg.max_pages)
    (hnvis : ¬ st.visited.contains (fp url) = true)
    (hr : (inspect_page_with_retry cfg.max_retries (inspect url)).1 = some r) :
    crawlLoop cfg fp inspect linkPrep st =
      crawlLoop cfg fp inspect linkPrep
        { visited := fp url :: st.visited,
          queue := qrest ++ (if depth < cfg.max_depth then
              r.outlinks.filterMap (fun l =>
                (linkPrep l (fp url :: st.visited)).map (fun u => (u, depth + 1)))
            else []),
          pages := st.pages ++ [⟨url, depth, r.status⟩],
          findings := st.findings ++ r.findings,
          pagesCount := st.pagesCount + 1,
          inspected := st.inspected ++ [url] } := by
  rw [crawlLoop.eq_def]
  split
  next heq => rw [hq] at heq; cases heq
  next url2 depth2 qrest2 heq =>
    rw [hq] at heq
    have hs : (url = url2 ∧ depth = depth2) ∧ qrest = qrest2 := by simpa using heq
    obtain ⟨⟨hu, hd⟩, hq2⟩ := hs
    subst hu; subst hd; subst hq2
    rw [dif_pos hlt, if_neg hnvis, hr]

theorem crawlLoop_visit_fail {cfg : Config} {fp : String → String}
    {inspect : String → Nat → Except String Explorer.PageResult}
    {linkPrep : String → List String → Option String} {st : CrawlState}
    {url : String} {depth : Nat} {qrest : List (String × Nat)}
    (hq : st.queue = (url, depth) :: qrest)
    (hlt : st.pagesCount < cfg.max_pages)
    (hnvis : ¬ st.visited.contains (fp url) = true)
    (hr : (inspect_page_with_retry cfg.max_retries (inspect url)).1 = none) :
    crawlLoop cfg fp inspect linkPrep st =
      crawlLoop cfg fp inspect linkPrep
        { visited := fp url :: st.visited, queue := qrest,
          pages := st.pages ++ [⟨url, depth, none⟩],
          findings := st.findings,
          pagesCount := st.pagesCount + 1,
          inspected := st.inspected ++ [url] } := by
  rw [crawlLoop.eq_def]
  split
  next heq => rw [hq] at heq; cases heq
  next url2 depth2 qrest2 heq =>
    rw [hq] at heq
    have hs : (url = url2 ∧ depth = depth2) ∧ qrest = qrest2 := by simpa using heq
    obtain ⟨⟨hu, hd⟩, hq2⟩ := hs
    subst hu; subst hd; subst hq2
    rw [dif_pos hlt, if_neg hnvis, hr]

theorem crawlLoop_inv (cfg : Config) (fp : String → String)
    (inspect : String → Nat → Except String Explorer.PageResult)
    (linkPrep : String → List String → Option String) (st : CrawlState) :
    st.pages.length ≤ st.pagesCount → st.inspected.length ≤ st.pagesCount →
    st.pagesCount ≤ cfg.max_pages →
    (crawlLoop cfg fp inspect linkPrep st).pages.length ≤ cfg.max_pages ∧
    (crawlLoop cfg fp inspect linkPrep st).inspected.length ≤ cfg.max_pages := by
  induction st using crawlLoop.induct cfg fp inspect linkPrep with
  | case1 x hq =>
    intro h1 h2 h3
    rw [crawlLoop_nil hq]
    exact ⟨le_trans h1 h3, le_trans h2 h3⟩
  | case2 x url depth qrest hq hlt hvis ih =>
    intro h1 h2 h3
    rw [crawlLoop_skip hq hlt hvis]
    exact ih h1 h2 h3
  | case3 x url depth qrest hq hlt hnvis r hr ih =>
    intro h1 h2 h3
    rw [crawlLoop_visit_ok hq hlt hnvis hr]
    refine ih ?_ ?_ ?_
    · show (x.pages ++ [({ url := url, depth := depth, status := r.status } : PageEntry)]).length ≤ x.pagesCount + 1
      simp only [List.length_append, List.length_cons, List.length_nil]
      omega
    · show (x.inspected ++ [url]).length ≤ x.pagesCount + 1
      simp only [List.length_append, List.length_cons, List.length_nil]
      omega
    · show x.pagesCount + 1 ≤ cfg.max_pages
      omega
  | case4 x url depth qrest hq hlt hnvis hr ih =>
    intro h1 h2 h3
    rw [crawlLoop_visit_fail hq hlt hnvis hr]
    refine ih ?_ ?_ ?_
    · show (x.pages ++ [({ url := url, depth := depth, status := none } : PageEntry)]).length ≤ x.pagesCount + 1
      simp only [List.length_append, List.length_cons, List.length_nil]
      omega
    · show (x.inspected ++ [url]).length ≤ x.pagesCount + 1
      simp only [List.length_append, List.length_cons, List.length_nil]
      omega
    · show x.pagesCount + 1 ≤ cfg.max_pages
      omega
  | case5 x url depth qrest hq hge =>
    intro h1 h2 h3
    rw [crawlLoop_stop hq hge]
    exact ⟨le_trans h1 h3, le_trans h2 h3⟩

end Crawler

example : URLUtils.normalize_url "https://example.com/page#section".data =
    .ok "https://example.com/page".data := by decide

example : URLUtils.normalize_url "https://EXAMPLE.COM/Page".data =
    .ok "https://example.com/Page".data := by decide

example : URLUtils.detect_path_parameters "https://example.com/user/123/post/456".data =
    .ok "https://example.com/user/*/post/*".data := by decide

example : URLUtils.detect_path_parameters
      "https://example.com/item/550e8400-e29b-41d4-a716-446655440000".data =
    .ok "https://example.com/item/*".data := by decide

example : URLUtils.should_crawl_url "https://other.com/page".data "example.com".data [] =
    .ok false := by decide

example : URLUtils.normalize_url "http://[".data = .error "Invalid IPv6 URL" := by decide

/-- C3: for every link graph (the inspector and link-preparation functions
are arbitrary, covering fully connected and infinite graphs), `crawl_site`
terminates — it is a total function, defined by well-founded recursion on
`(max_pages - pagesCount, queue length)` — and the report satisfies
`pages_total ≤ max_pages`; no more than `max_pages` URLs are ever handed to
the inspector; the default `max_pages` is 50. -/
theorem claim_C3_crawl_is_bounded (cfg : Crawler.Config) (seed : String)
    (fp : String → String)
    (inspect : String → Nat → Except String Explorer.PageResult)
    (linkPrep : String → List String → Option String) :
    (Crawler.crawl_site cfg seed fp inspect linkPrep).1.pages_total ≤ cfg.max_pages ∧
    (Crawler.crawl_site cfg seed fp inspect linkPrep).2.length ≤ cfg.max_pages ∧
    ({} : Crawler.Config).max_pages = 50 := by
  have h := Crawler.crawlLoop_inv cfg fp inspect linkPrep
    ⟨[], [(seed, 0)], [], [], 0, []⟩ (by simp) (by simp) (Nat.zero_le _)
  exact ⟨h.1, h.2, rfl⟩

/-- C4: `_inspect_page_with_retry` calls the inspector exactly
`max_retries` times (default 3) when every call throws, returning `none`
(a failure indicator, not an exception); when an attempt succeeds within
the bound, the successful `PageResult` is returned after exactly the
attempts made. -/
theorem claim_C4_retry_bound (cfg : Crawler.Config)
    (inspect : Nat → Except String Explorer.PageResult) :
    ({} : Crawler.Config).max_retries = 3 ∧
    ((∀ k, ∃ e, inspect k = .error e) →
      Crawler.inspect_page_with_retry cfg.max_retries inspect =
        (none, cfg.max_retries)) ∧
    (∀ j r, j < cfg.max_retries → inspect j = .ok r →
      (∀ i, i < j → ∃ e, inspect i = .error e) →
      Crawler.inspect_page_with_retry cfg.max_retries inspect = (some r, j + 1)) := by
  refine ⟨rfl, ?_, ?_⟩
  · intro hfail
    unfold Crawler.inspect_page_with_retry
    rw [Crawler.retryGo_all_fail inspect hfail cfg.max_retries 0]
    simp
  · intro j r hj hok hprev
    unfold Crawler.inspect_page_with_retry
    have h := Crawler.retryGo_success inspect j cfg.max_retries 0 r hj
      (by simpa using hok) (fun i hi => by simpa using hprev i hi)
    rw [h]
    simp

/-- Witness for C4: an inspector that always throws is called exactly three
times under the default configuration and yields `none`; an inspector that
fails twice and then succeeds yields the successful result after three
calls. -/
theorem claim_C4_retry_bound_witness :
    Crawler.inspect_page_with_retry ({} : Crawler.Config).max_retries
        (fun _ => .error "Network error") = (none, 3) ∧
    Crawler.inspect_page_with_retry ({} : Crawler.Config).max_retries
        (fun k => if k < 2 then .error "Network error"
                  else .ok ⟨"https://example.com", some 200, [], [], [], []⟩) =
      (some ⟨"https://example.com", some 200, [], [], [], []⟩, 3) := by
  constructor
  · exact (claim_C4_retry_bound {} (fun _ => .error "Network error")).2.1
      (fun _ => ⟨"Network error", rfl⟩)
  · exact (claim_C4_retry_bound {}
      (fun k => if k < 2 then .error "Network error"
                else .ok ⟨"https://example.com", some 200, [], [], [], []⟩)).2.2
      2 ⟨"https://example.com", some 200, [], [], [], []⟩ (by decide) (by decide)
      (fun i hi => ⟨"Network error", by interval_cases i <;> decide⟩)

/-- C10: in `_safe_click_element` the fallback ladder runs only when the
plain click's error message contains `intercepts pointer events`: any
other failure returns `false` after that single attempt with no fallback
tried, and inside `_test_dropdowns` such an element is skipped while the
remaining elements are still explored; when the message does contain the
marker, the overlay-dismissal retry is attempted next. -/
theorem claim_C10_fallback_gate (c : Explorer.ClickEnv) (e : String)
    (h : c.plain = .error e) :
    (Explorer.strContains e "intercepts pointer events" = false →
      Explorer.safe_click_element c = (false, [.plain])) ∧
    (Explorer.strContains e "intercepts pointer events" = true →
      (Explorer.safe_click_element c).2.take 2 =
        [Explorer.Strategy.plain, Explorer.Strategy.dismissRetry]) ∧
    (∀ (bad good : Explorer.DropElem), bad.visible = true → good.visible = true →
      bad.openClick = c →
      Explorer.strContains e "intercepts pointer events" = false →
      (Explorer.test_dropdowns [[bad, good]]).1 =
        (if (Explorer.safe_click_element good.openClick).1
         then Explorer.dropElemBugs good else [])) := by
  refine ⟨?_, ?_, ?_⟩
  · intro hno
    unfold Explorer.safe_click_element
    rw [h]
    simp [hno]
  · intro hyes
    unfold Explorer.safe_click_element
    rw [h]
    simp only [hyes, if_true]
    cases c.retryAfterDismiss <;> cases c.forced <;> cases c.scrollRetry <;>
      cases c.jsClick <;> rfl
  · intro bad good hbv hgv hbc hno
    have hbad : Explorer.safe_click_element bad.openClick = (false, [.plain]) := by
      rw [hbc]
      unfold Explorer.safe_click_element
      rw [h]
      simp [hno]
    unfold Explorer.test_dropdowns
    simp [hbv, hgv, hbad]

/-- Witness for C10: a plain timeout failure (no interception marker)
stops the ladder immediately, and the element contributes nothing while
the next element's findings survive. -/
theorem claim_C10_fallback_gate_witness :
    Explorer.safe_click_element
        ⟨.error "Timeout 3000ms exceeded", .ok (), .ok (), .ok (), .ok ()⟩ =
      (false, [.plain]) ∧
    (Explorer.test_dropdowns
        [[⟨true, ⟨.error "Timeout 3000ms exceeded", .ok (), .ok (), .ok (), .ok ()⟩,
           ⟨.ok (), .ok (), .ok (), .ok (), .ok ()⟩, false, true, false, []⟩,
          ⟨true, ⟨.ok (), .ok (), .ok (), .ok (), .ok ()⟩,
           ⟨.ok (), .ok (), .ok (), .ok (), .ok ()⟩, false, true, false,
           [⟨"b1", "UI", "low", "https://example.com", "overflow", none, {}, []⟩]⟩]]).1 =
      [⟨"b1", "UI", "low", "https://example.com", "overflow", none, {}, []⟩] := by
  constructor
  · exact (claim_C10_fallback_gate
      ⟨.error "Timeout 3000ms exceeded", .ok (), .ok (), .ok (), .ok ()⟩
      "Timeout 3000ms exceeded" rfl).1 (by decide)
  · have h := (claim_C10_fallback_gate
      ⟨.error "Timeout 3000ms exceeded", .ok (), .ok (), .ok (), .ok ()⟩
      "Timeout 3000ms exceeded" rfl).2.2
      ⟨true, ⟨.error "Timeout 3000ms exceeded", .ok (), .ok (), .ok (), .ok ()⟩,
       ⟨.ok (), .ok (), .ok (), .ok (), .ok ()⟩, false, true, false, []⟩
      ⟨true, ⟨.ok (), .ok (), .ok (), .ok (), .ok ()⟩,
       ⟨.ok (), .ok (), .ok (), .ok (), .ok ()⟩, false, true, false,
       [⟨"b1", "UI", "low", "https://example.com", "overflow", none, {}, []⟩]⟩
      rfl rfl rfl (by decide)
    rw [h]
    decide

/-- C5 counterexample: in the modal family the safe-click ladder is not
used at all.  A visible modal trigger whose plain click fails with the
interception message is clicked exactly once (one `.error` attempt, no
dismissal/forced/scroll/DOM fallback), and the remaining element of the
same selector pattern — which carries a finding — is never explored, so
its finding is lost. -/
theorem counterexample_C5_modal_plain_click :
    Explorer.test_modals
        [[⟨true, .error "<div class=overlay> intercepts pointer events", true, false, []⟩,
          ⟨true, .ok (), true, false,
           [⟨"b2", "UI", "medium", "https://example.com", "modal overlap", none, {}, []⟩]⟩]] =
      ([], [[.error "<div class=overlay> intercepts pointer events"]]) ∧
    Explorer.modalElemBugs
        ⟨true, .ok (), true, false,
         [⟨"b2", "UI", "medium", "https://example.com", "modal overlap", none, {}, []⟩]⟩ =
      [⟨"b2", "UI", "medium", "https://example.com", "modal overlap", none, {}, []⟩] := by
  constructor
  · rfl
  · rfl

/-- C5 amended: only dropdown triggers go through the safe-click fallback
ladder, and there a failed safe-click skips just that element while the
remaining elements are explored; modal and accordion triggers are clicked
with a single plain `element.click()`, a failure of which abandons the
remaining elements of that selector pattern (caught by the per-selector
handler) while the following selector patterns and families continue. -/
theorem claim_C5_amended_click_paths :
    (∀ (bad good : Explorer.DropElem), bad.visible = true → good.visible = true →
      (Explorer.safe_click_element bad.openClick).1 = false →
      (Explorer.safe_click_element good.openClick).1 = true →
      Explorer.test_dropdowns [[bad, good]] =
        (Explorer.dropElemBugs good,
         [Explorer.safe_click_element bad.openClick,
          Explorer.safe_click_element good.openClick])) ∧
    (∀ (d : Explorer.DropElem) (e : String), d.visible = true →
      d.openClick.plain = .error e →
      Explorer.strContains e "intercepts pointer events" = true →
      (Explorer.test_dropdowns [[d]]).2 = [Explorer.safe_click_element d.openClick] ∧
      (Explorer.safe_click_element d.openClick).2.take 2 =
        [Explorer.Strategy.plain, Explorer.Strategy.dismissRetry]) ∧
    (∀ (A : Explorer.ModalElem) (rest : List Explorer.ModalElem)
       (others : List (List Explorer.ModalElem)) (msg : String),
      A.visible = true → A.click = .error msg →
      Explorer.test_modals ((A :: rest) :: others) =
        (others.flatMap (fun es => (Explorer.modalSelectorStep (es.take 2)).1),
         [.error msg] :: others.map (fun es => (Explorer.modalSelectorStep (es.take 2)).2))) ∧
    (∀ (A : Explorer.AccordionElem) (rest : List Explorer.AccordionElem)
       (others : List (List Explorer.AccordionElem)) (msg : String),
      A.visible = true → A.openClick = .error msg →
      Explorer.test_accordions ((A :: rest) :: others) =
        (others.flatMap (fun es => (Explorer.accordionSelectorStep (es.take 3)).1),
         [.error msg] :: others.map (fun es => (Explorer.accordionSelectorStep (es.take 3)).2))) := by
  refine ⟨?_, ?_, ?_, ?_⟩
  · intro bad good hbv hgv hbf hgt
    unfold Explorer.test_dropdowns
    simp [hbv, hgv, hbf, hgt]
  · intro d e hv hp hin
    constructor
    · unfold Explorer.test_dropdowns
      simp [hv]
    · unfold Explorer.safe_click_element
      rw [hp]
      simp only [hin, if_true]
      cases d.openClick.retryAfterDismiss <;> cases d.openClick.forced <;>
        cases d.openClick.scrollRetry <;> cases d.openClick.jsClick <;> rfl
  · intro A rest others msg hv hc
    have hstep : ∀ l, Explorer.modalSelectorStep (A :: l) = ([], [.error msg]) := by
      intro l; simp [Explorer.modalSelectorStep, hv, hc]
    unfold Explorer.test_modals
    simp [hstep]
  · intro A rest others msg hv hc
    have hstep : ∀ l, Explorer.accordionSelectorStep (A :: l) = ([], [.error msg]) := by
      intro l; simp [Explorer.accordionSelectorStep, hv, hc]
    unfold Explorer.test_accordions
    simp [hstep]

/-- Witness for the amended C5: concrete dropdown, modal and accordion
environments exercising each conjunct. -/
theorem claim_C5_amended_click_paths_witness :
    Explorer.test_dropdowns
        [[⟨true, ⟨.error "detached", .ok (), .ok (), .ok (), .ok ()⟩,
           ⟨.ok (), .ok (), .ok (), .ok (), .ok ()⟩, false, true, false, []⟩,
          ⟨true, ⟨.ok (), .ok (), .ok (), .ok (), .ok ()⟩,
           ⟨.ok (), .ok (), .ok (), .ok (), .ok ()⟩, false, true, false,
           [⟨"b3", "UI", "low", "https://example.com", "clipped menu", none, {}, []⟩]⟩]] =
      ([⟨"b3", "UI", "low", "https://example.com", "clipped menu", none, {}, []⟩],
       [(false, [.plain]), (true, [.plain])]) ∧
    Explorer.test_modals
        [[⟨true, .error "boom", true, false, []⟩],
         [⟨true, .ok (), true, false,
           [⟨"b4", "UI", "low", "https://example.com", "backdrop", none, {}, []⟩]⟩]] =
      ([⟨"b4", "UI", "low", "https://example.com", "backdrop", none, {}, []⟩],
       [[.error "boom"], [.ok ()]]) ∧
    Explorer.test_accordions
        [[⟨true, .error "boom", .ok (), true, false, []⟩],
         [⟨true, .ok (), .ok (), true, false,
           [⟨"b5", "UI", "low", "https://example.com", "jump", none, {}, []⟩]⟩]] =
      ([⟨"b5", "UI", "low", "https://example.com", "jump", none, {}, []⟩],
       [[.error "boom"], [.ok (), .ok ()]]) := by
  refine ⟨?_, ?_, ?_⟩
  · have h := claim_C5_amended_click_paths.1
      ⟨true, ⟨.error "detached", .ok (), .ok (), .ok (), .ok ()⟩,
       ⟨.ok (), .ok (), .ok (), .ok (), .ok ()⟩, false, true, false, []⟩
      ⟨true, ⟨.ok (), .ok (), .ok (), .ok (), .ok ()⟩,
       ⟨.ok (), .ok (), .ok (), .ok (), .ok ()⟩, false, true, false,
       [⟨"b3", "UI", "low", "https://example.com", "clipped menu", none, {}, []⟩]⟩
      rfl rfl (by decide) (by decide)
    rw [h]
    decide
  · have h := claim_C5_amended_click_paths.2.2.1
      ⟨true, .error "boom", true, false, []⟩ []
      [[⟨true, .ok (), true, false,
         [⟨"b4", "UI", "low", "https://example.com", "backdrop", none, {}, []⟩]⟩]]
      "boom" rfl rfl
    rw [h]
    decide
  · have h := claim_C5_amended_click_paths.2.2.2
      ⟨true, .error "boom", .ok (), true, false, []⟩ []
      [[⟨true, .ok (), .ok (), true, false,
         [⟨"b5", "UI", "low", "https://example.com", "jump", none, {}, []⟩]⟩]]
      "boom" rfl rfl
    rw [h]
    decide

/-- C1 counterexample: with one finding already accumulated in the desktop
viewport and an exception in the tablet viewport, the returned
`PageResult` holds only the single `Logic` bug — the desktop finding and
the viewport artifacts accumulated before the exception are not preserved
(`result.findings.extend(self.bugs)` on line 85 is skipped), refuting the
preservation part of the claim.  Timings and outlinks, assigned before the
exception, are kept. -/
theorem counterexample_C1_partial_findings_lost :
    (Explorer.run_complete_exploration envC1 "https://example.com").findings.length = 1 ∧
    baselineBugC1 ∉ (Explorer.run_complete_exploration envC1 "https://example.com").findings ∧
    (Explorer.run_complete_exploration envC1 "https://example.com").viewport_artifacts = [] ∧
    envC1.artifacts = ["evidence/shot1.png"] ∧
    (Explorer.run_complete_exploration envC1 "https://example.com").timings = [("load", 12)] ∧
    (Explorer.run_complete_exploration envC1 "https://example.com").outlinks =
      ["https://example.com/about"] := by
  refine ⟨?_, ?_, ?_, rfl, ?_, ?_⟩ <;> decide

/-- C1 amended: an exception in the viewport-exploration phase of
`run_complete_exploration` never propagates: the call returns a
`PageResult` whose findings are exactly one `Logic`-type, `high`-severity
bug carrying the error message; timings and outlinks assigned before the
exception are preserved, but findings accumulated in `self.bugs` before
the exception and the viewport artifacts are absent from the returned
result. -/
theorem claim_C1_amended_exploration_error (env : Explorer.ExploreEnv)
    (u : String) (t : List (String × Int)) (msg : String)
    (b1 b2 : List Explorer.Bug) (a1 a2 : List Explorer.RecAction)
    (ht : env.timings = .ok t)
    (hd : env.viewport "desktop" = .ok b1 a1)
    (htab : env.viewport "tablet" = .err msg b2 a2) :
    (Explorer.run_complete_exploration env u).findings.length = 1 ∧
    (∀ bug ∈ (Explorer.run_complete_exploration env u).findings,
      bug.type = "Logic" ∧ bug.severity = "high" ∧
      bug.summary = "Exploration error: " ++ msg ∧
      bug.suggested_fix = some "Review page structure and exploration compatibility") ∧
    (Explorer.run_complete_exploration env u).timings = t ∧
    (Explorer.run_complete_exploration env u).outlinks = env.outlinks ∧
    (Explorer.run_complete_exploration env u).viewport_artifacts = [] ∧
    (Explorer.run_complete_exploration env u).page_url = u ∧
    (Explorer.run_complete_exploration env u).status = none := by
  unfold Explorer.run_complete_exploration
  rw [ht]
  simp only [Explorer.defaultViewports, Explorer.runViewports, hd, htab]
  refine ⟨by simp, ?_, by simp, by simp, by simp, by simp, by simp⟩
  intro bug hbug
  simp only [List.nil_append, List.mem_singleton] at hbug
  subst hbug
  exact ⟨rfl, rfl, rfl, rfl⟩

/-- Witness for the amended C1 at the concrete environment `envC1`. -/
theorem claim_C1_amended_exploration_error_witness :
    (Explorer.run_complete_exploration envC1 "https://example.com").findings.length = 1 ∧
    (Explorer.run_complete_exploration envC1 "https://example.com").timings = [("load", 12)] ∧
    (Explorer.run_complete_exploration envC1 "https://example.com").outlinks =
      ["https://example.com/about"] := by
  obtain ⟨h1, _, h3, h4, _, _, _⟩ := claim_C1_amended_exploration_error envC1
    "https://example.com" [("load", 12)] "Screenshot timeout"
    [baselineBugC1] [] [] [] rfl (by decide) (by decide)
  exact ⟨h1, h3, h4⟩

namespace Explorer

theorem desc_mem_addStep_new (r : ActionRecorder) (a : String)
    (tg v : Option String) (d : String) (vp : Option String) :
    d ∈ ((r.addStep a tg v d vp).steps.map (fun s => s.description)) := by
  simp [ActionRecorder.addStep]

theorem desc_mem_addStep_old {r : ActionRecorder} {d : String}
    (h : d ∈ r.steps.map (fun s => s.description)) (a : String)
    (tg v : Option String) (d2 : String) (vp : Option String) :
    d ∈ ((r.addStep a tg v d2 vp).steps.map (fun s => s.description)) := by
  simp only [ActionRecorder.addStep, List.map_append, List.mem_append]
  exact Or.inl h

theorem desc_mem_applyRec {r : ActionRecorder} {d : String}
    (h : d ∈ r.steps.map (fun s => s.description)) (act : RecAction) :
    d ∈ ((applyRec r act).steps.map (fun s => s.description)) := by
  cases act with
  | click s t dd =>
    exact desc_mem_addStep_old (r := r) h "click" (some s) (some t) dd none
  | fill s v f =>
    exact desc_mem_addStep_old (r := r) h "fill" (some s) (some v)
      ("Fill field " ++ f) none

theorem desc_mem_foldl {d : String} (acts : List RecAction) :
    ∀ {r : ActionRecorder}, d ∈ r.steps.map (fun s => s.description) →
      d ∈ ((acts.foldl applyRec r).steps.map (fun s => s.description)) := by
  induction acts with
  | nil => intro r h; exact h
  | cons a rest ih =>
    intro r h
    exact ih (desc_mem_applyRec h a)

end Explorer

/-- C8 counterexample: the reproduction steps stored on a `Bug` are the
plain description strings, not structured `ReproStep` entries — two
recorder histories that differ in the recorded action kind (a click
versus a fill) but share the description produce identical findings, so
the structured content (action kind, target, value) is not carried. -/
theorem counterexample_C8_steps_not_structured :
    Explorer.create_bug_with_repro_steps (some recClickC8) "UI" "low"
        "https://example.com" "overlap" none none =
      Explorer.create_bug_with_repro_steps (some recFillC8) "UI" "low"
        "https://example.com" "overlap" none none ∧
    recClickC8 ≠ recFillC8 := by
  constructor
  · decide
  · decide

/-- C8 amended: every bug built through `_create_bug_with_repro_steps`
after exploration begins carries `evidence.action_log` rendered from the
recorder's current steps and `reproduction_steps` equal to the
descriptions (plain strings) of every step recorded up to that point, in
order; in particular a finding produced after the viewport change to
mobile includes that viewport-change step's description. -/
theorem claim_C8_amended_repro_from_recorder :
    (∀ (r : Explorer.ActionRecorder) (ty sv u m : String) (f : Option String),
      (Explorer.create_bug_with_repro_steps (some r) ty sv u m f none).reproduction_steps =
        r.steps.map (fun s => s.description) ∧
      (Explorer.create_bug_with_repro_steps (some r) ty sv u m f none).evidence.action_log =
        some r.format_steps_for_human) ∧
    (∀ (env : Explorer.ExploreEnv) (u : String) (t : List (String × Int)) (msg : String)
       (b1 b2 b3 : List Explorer.Bug) (a1 a2 a3 : List Explorer.RecAction),
      env.timings = .ok t →
      env.viewport "desktop" = .ok b1 a1 →
      env.viewport "tablet" = .ok b2 a2 →
      env.viewport "mobile" = .err msg b3 a3 →
      ∀ bug ∈ (Explorer.run_complete_exploration env u).findings,
        "Change to mobile viewport" ∈ bug.reproduction_steps ∧
        bug.evidence.action_log.isSome = true) := by
  constructor
  · intro r ty sv u m f
    constructor
    · rfl
    · rfl
  · intro env u t msg b1 b2 b3 a1 a2 a3 ht hd htab hmob bug hbug
    unfold Explorer.run_complete_exploration at hbug
    rw [ht] at hbug
    simp only [Explorer.defaultViewports, Explorer.runViewports, hd, htab, hmob] at hbug
    simp only [List.nil_append, List.mem_singleton] at hbug
    subst hbug
    constructor
    · show "Change to mobile viewport" ∈ _
      have hnew := Explorer.desc_mem_addStep_new
        (Explorer.ActionRecorder.mk u [] |>.record_navigation u "Navigate to page for testing"
          |>.record_viewport_change "1280x800" "Change to desktop viewport"
          |> (a1.foldl Explorer.applyRec)
          |>.record_viewport_change "768x1024" "Change to tablet viewport"
          |> (a2.foldl Explorer.applyRec))
        "viewport-change" none none "Change to mobile viewport" (some "375x667")
      have hall := Explorer.desc_mem_foldl a3 hnew
      exact hall
    · rfl

/-- Witness for the amended C8: the general conjunct applied to a concrete
recorder, and the run conjunct applied to a concrete environment failing
in the mobile viewport. -/
theorem claim_C8_amended_repro_from_recorder_witness :
    (Explorer.create_bug_with_repro_steps (some recClickC8) "UI" "low"
        "https://example.com" "overlap" none none).reproduction_steps =
      ["Press the button"] ∧
    (∀ bug ∈ (Explorer.run_complete_exploration
        { timings := .ok [],
          outlinks := [],
          viewport := fun name =>
            if name = "mobile" then .err "boom" [] [] else .ok [] [],
          artifacts := [] } "https://example.com").findings,
      "Change to mobile viewport" ∈ bug.reproduction_steps) := by
  constructor
  · exact (claim_C8_amended_repro_from_recorder.1 recClickC8 "UI" "low"
      "https://example.com" "overlap" none).1
  · intro bug hbug
    exact (claim_C8_amended_repro_from_recorder.2
      { timings := .ok [], outlinks := [],
        viewport := fun name =>
          if name = "mobile" then .err "boom" [] [] else .ok [] [],
        artifacts := [] } "https://example.com" [] "boom" [] [] [] [] [] []
      rfl (by decide) (by decide) (by decide) bug hbug).1

/-- C2 counterexample: the dedup key used by `should_crawl_url` is
`detect_path_parameters` applied to the raw URL, which is not the wildcard
replacement of the normalized URL: it preserves the fragment and the
host's letter-case, so two URLs differing only by a `#fragment` (or by
host case) have different fingerprints, refuting both the claimed
factoring and the claimed insensitivity. -/
theorem counterexample_C2_fingerprint_not_normalized :
    URLUtils.detect_path_parameters "https://example.com/a#f".data =
      .ok "https://example.com/a#f".data ∧
    (URLUtils.normalize_url "https://example.com/a#f".data >>=
        URLUtils.detect_path_parameters) = .ok "https://example.com/a".data ∧
    URLUtils.detect_path_parameters "https://example.com/a#f".data ≠
      URLUtils.detect_path_parameters "https://example.com/a".data ∧
    URLUtils.detect_path_parameters "https://EXAMPLE.com/a".data ≠
      URLUtils.detect_path_parameters "https://example.com/a".data := by
  refine ⟨?_, ?_, ?_, ?_⟩ <;> decide

/-- C2 amended: the dedup key is `detect_path_parameters` applied directly
to the raw URL: it replaces numeric/UUID path segments of the
slash-stripped path with `*` (thereby collapsing a trailing slash) but
keeps the scheme, netloc (letter-case included), params, query and
fragment verbatim; `should_crawl_url` tests exactly this key against the
visited set.  Two URLs differing only by a trailing slash share a
fingerprint; URLs differing by fragment or host case generally do not. -/
theorem claim_C2_amended_dedup_key :
    (∀ (url : List Char) (p : Py.UrlParse), Py.pyUrlparse url = .ok p →
      URLUtils.detect_path_parameters url = .ok (Py.pyUrlunparse ⟨p.scheme, p.netloc,
        (if (Py.splitSeg '/' (URLUtils.stripSlash p.path)).map URLUtils.wildcardSeg = [[]]
         then ['/']
         else '/' :: List.intercalate ['/']
           ((Py.splitSeg '/' (URLUtils.stripSlash p.path)).map URLUtils.wildcardSeg)),
        p.params, p.query, p.fragment⟩)) ∧
    (∀ (url seed : List Char) (visited : List (List Char)) (p : Py.UrlParse),
      Py.pyUrlparse url = .ok p →
      p.netloc.map Char.toLower = seed.map Char.toLower →
      URLUtils.should_crawl_url url seed visited =
        (URLUtils.detect_path_parameters url).map (fun n => !(visited.contains n))) ∧
    URLUtils.detect_path_parameters "https://example.com/a/".data =
      URLUtils.detect_path_parameters "https://example.com/a".data := by
  refine ⟨?_, ?_, by decide⟩
  · intro url p h
    exact URLUtils.detect_of_ok h
  · intro url seed visited p h heq
    exact URLUtils.should_crawl_of_host_eq visited h heq

/-- Witness for the amended C2: the key of `/user/123#sec` keeps the
fragment and wildcards the ID, and `should_crawl_url` consults exactly that
key. -/
theorem claim_C2_amended_dedup_key_witness :
    URLUtils.detect_path_parameters "https://example.com/user/123#sec".data =
      .ok "https://example.com/user/*#sec".data ∧
    URLUtils.should_crawl_url "https://example.com/user/123#sec".data
        "example.com".data ["https://example.com/user/*#sec".data] = .ok false := by
  constructor
  · have h := claim_C2_amended_dedup_key.1 "https://example.com/user/123#sec".data
      ⟨"https".data, "example.com".data, "/user/123".data, [], [], "sec".data⟩ (by decide)
    rw [h]
    decide
  · have h := claim_C2_amended_dedup_key.2.1 "https://example.com/user/123#sec".data
      "example.com".data ["https://example.com/user/*#sec".data]
      ⟨"https".data, "example.com".data, "/user/123".data, [], [], "sec".data⟩
      (by decide) (by decide)
    rw [h]
    decide

/-- C6: URLs whose parses agree on scheme, netloc, params, query and
fragment and whose path segments are pointwise equal or both ID-like
(fully numeric, or the 8-4-4-4-12 case-insensitive UUID shape) — in
particular URLs differing only in one such segment — have equal
fingerprints under `detect_path_parameters`; each ID-like segment is
replaced by the wildcard `*` and non-ID segments are kept unchanged. -/
theorem claim_C6_id_segments_collapse (a b : List Char) (pa pb : Py.UrlParse)
    (ha : Py.pyUrlparse a = .ok pa) (hb : Py.pyUrlparse b = .ok pb)
    (hs : pa.scheme = pb.scheme) (hn : pa.netloc = pb.netloc)
    (hparams : pa.params = pb.params) (hq : pa.query = pb.query)
    (hf : pa.fragment = pb.fragment)
    (hrel : URLUtils.segRel (Py.splitSeg '/' (URLUtils.stripSlash pa.path))
      (Py.splitSeg '/' (URLUtils.stripSlash pb.path)) = true) :
    URLUtils.detect_path_parameters a = URLUtils.detect_path_parameters b ∧
    URLUtils.detect_path_parameters a = .ok (Py.pyUrlunparse ⟨pa.scheme, pa.netloc,
      (if (Py.splitSeg '/' (URLUtils.stripSlash pa.path)).map URLUtils.wildcardSeg = [[]]
       then ['/']
       else '/' :: List.intercalate ['/']
         ((Py.splitSeg '/' (URLUtils.stripSlash pa.path)).map URLUtils.wildcardSeg)),
      pa.params, pa.query, pa.fragment⟩) := by
  have hmap := URLUtils.map_wildcard_of_segRel hrel
  constructor
  · rw [URLUtils.detect_of_ok ha, URLUtils.detect_of_ok hb, hmap, hs, hn, hparams, hq, hf]
  · exact URLUtils.detect_of_ok ha

/-- Witness for C6: `/user/123` and `/user/456` share a fingerprint, the ID
replaced by `*`. -/
theorem claim_C6_id_segments_collapse_witness :
    URLUtils.detect_path_parameters "https://example.com/user/123".data =
      URLUtils.detect_path_parameters "https://example.com/user/456".data ∧
    URLUtils.detect_path_parameters "https://example.com/user/123".data =
      .ok "https://example.com/user/*".data := by
  have h := claim_C6_id_segments_collapse
    "https://example.com/user/123".data "https://example.com/user/456".data
    ⟨"https".data, "example.com".data, "/user/123".data, [], [], []⟩
    ⟨"https".data, "example.com".data, "/user/456".data, [], [], []⟩
    (by decide) (by decide) rfl rfl rfl rfl rfl (by decide)
  refine ⟨h.1, ?_⟩
  rw [h.2]
  decide

/-- C7: `normalize_url` is insensitive to the fragment — normalizing any
URL equals normalizing the same URL cut at its first `#` — collapses the
trailing slash (`/page` and `/page/` normalize identically, to `/page`),
and factors through the parse as: lowercase the netloc, drop every
trailing `/` of the path (the empty path becoming `/`), keep the scheme,
params, query and the path's letter-case, and drop the fragment. -/
theorem claim_C7_normalize_url_shape :
    (∀ url : List Char,
      URLUtils.normalize_url url =
        URLUtils.normalize_url (url.takeWhile (fun c => c != '#'))) ∧
    URLUtils.normalize_url "https://example.com/page".data =
      URLUtils.normalize_url "https://example.com/page/".data ∧
    URLUtils.normalize_url "https://example.com/page".data =
      .ok "https://example.com/page".data ∧
    (∀ (url : List Char) (p : Py.UrlParse), Py.pyUrlparse url = .ok p →
      URLUtils.normalize_url url = .ok (Py.pyUrlunparse ⟨p.scheme,
        p.netloc.map Char.toLower,
        (if URLUtils.rstripSlash p.path = [] then ['/'] else URLUtils.rstripSlash p.path),
        p.params, p.query, []⟩)) := by
  refine ⟨URLUtils.normalize_url_stripFrag, by decide, by decide, ?_⟩
  intro url p h
  exact URLUtils.normalize_url_of_ok h

/-- Witness for C7: a URL with uppercase host, mixed-case path, query and
fragment normalizes to the lowercased host with fragment removed and
everything else intact. -/
theorem claim_C7_normalize_url_shape_witness :
    URLUtils.normalize_url "https://EXAMPLE.com/MyPage?Q=Up#sec".data =
      .ok "https://example.com/MyPage?Q=Up".data := by
  have h := claim_C7_normalize_url_shape.2.2.2 "https://EXAMPLE.com/MyPage?Q=Up#sec".data
    ⟨"https".data, "EXAMPLE.com".data, "/MyPage".data, [], "Q=Up".data, "sec".data⟩
    (by decide)
  rw [h]
  decide

/-- C9 counterexample: `urlparse` raises `ValueError("Invalid IPv6 URL")`
on a URL whose authority has an unmatched square bracket, and none of the
three utilities catches it, so the exception reaches their callers instead
of the URL being treated as non-crawlable. -/
theorem counterexample_C9_bracket_url_raises :
    URLUtils.normalize_url "http://[".data = .error "Invalid IPv6 URL" ∧
    URLUtils.detect_path_parameters "http://[".data = .error "Invalid IPv6 URL" ∧
    URLUtils.should_crawl_url "http://[".data "example.com".data [] =
      .error "Invalid IPv6 URL" := by
  refine ⟨?_, ?_, ?_⟩ <;> decide

/-- C9 amended: whenever `urlparse` succeeds, the URL utilities return
without an exception — `normalize_url` and `detect_path_parameters`
produce values and `should_crawl_url` a boolean, `false` when the host
differs from the seed host (so host-less malformed URLs are non-crawlable)
— but a parse error (mismatched square bracket in the authority)
propagates unchanged out of all three. -/
theorem claim_C9_amended_no_raise_on_parse_ok :
    (∀ (url seed : List Char) (visited : List (List Char)) (e : String),
      Py.pyUrlparse url = .error e →
      URLUtils.should_crawl_url url seed visited = .error e ∧
      URLUtils.normalize_url url = .error e ∧
      URLUtils.detect_path_parameters url = .error e) ∧
    (∀ (url seed : List Char) (visited : List (List Char)) (p : Py.UrlParse),
      Py.pyUrlparse url = .ok p →
      (∃ v, URLUtils.normalize_url url = .ok v) ∧
      (∃ w, URLUtils.detect_path_parameters url = .ok w) ∧
      (∃ c, URLUtils.should_crawl_url url seed visited = .ok c)) ∧
    (∀ (url seed : List Char) (visited : List (List Char)) (p : Py.UrlParse),
      Py.pyUrlparse url = .ok p →
      p.netloc.map Char.toLower ≠ seed.map Char.toLower →
      URLUtils.should_crawl_url url seed visited = .ok false) := by
  refine ⟨?_, ?_, ?_⟩
  · intro url seed visited e h
    exact ⟨URLUtils.should_crawl_of_error visited h,
      URLUtils.normalize_url_of_error h, URLUtils.detect_of_error h⟩
  · intro url seed visited p h
    refine ⟨⟨_, URLUtils.normalize_url_of_ok h⟩, ⟨_, URLUtils.detect_of_ok h⟩, ?_⟩
    by_cases hh : p.netloc.map Char.toLower = seed.map Char.toLower
    · refine ⟨!(visited.contains (Py.pyUrlunparse ⟨p.scheme, p.netloc,
        (if (Py.splitSeg '/' (URLUtils.stripSlash p.path)).map URLUtils.wildcardSeg = [[]]
         then ['/']
         else '/' :: List.intercalate ['/']
           ((Py.splitSeg '/' (URLUtils.stripSlash p.path)).map URLUtils.wildcardSeg)),
        p.params, p.query, p.fragment⟩)), ?_⟩
      rw [URLUtils.should_crawl_of_host_eq visited h hh, URLUtils.detect_of_ok h]
      rfl
    · exact ⟨false, URLUtils.should_crawl_of_host_ne visited h hh⟩
  · intro url seed visited p h hne
    exact URLUtils.should_crawl_of_host_ne visited h hne

/-- Witness for the amended C9: a parseable URL on another host is
non-crawlable without an exception, and a relative host-less URL parses
and is non-crawlable too. -/
theorem claim_C9_amended_no_raise_on_parse_ok_witness :
    URLUtils.should_crawl_url "https://other.com/page".data "example.com".data [] =
      .ok false ∧
    URLUtils.should_crawl_url "not a url".data "example.com".data [] = .ok false := by
  constructor
  · exact claim_C9_amended_no_raise_on_parse_ok.2.2
      "https://other.com/page".data "example.com".data []
      ⟨"https".data, "other.com".data, "/page".data, [], [], []⟩
      (by decide) (by decide)
  · exact claim_C9_amended_no_raise_on_parse_ok.2.2
      "not a url".data "example.com".data []
      ⟨[], [], "not a url".data, [], [], []⟩
      (by decide) (by decide)
